import Mathlib

/-!
Shallow embedding of `generate_migration_txs.py` (repository 40-Acres/loan-contracts).

The script iterates over a hard-coded list of token IDs, invokes the external
tool `cast calldata` for each one, batches the successful results five at a
time, and writes each batch as a JSON file.  The external process is modelled
as an oracle `tool : List String → Option String` mapping the argument vector
to `none` (non-zero exit, i.e. `subprocess.CalledProcessError`) or
`some raw` (zero exit with `raw` on standard output).
-/

namespace LoanContracts

/-- Token IDs in the order specified by the user (module-level constant `token_ids`). -/
def token_ids : List Nat := [5959, 5961, 6335, 6524, 4593, 5603, 5597, 4613, 5596, 5418, 6336, 5451, 6088, 4997, 6301, 4345, 6769, 502, 6179, 6346, 6351, 6511, 6378, 5447, 6397, 6452, 6136, 6734, 6430, 3601, 5595, 204, 6106, 6554, 6459, 6427, 6341, 5618, 6396, 195, 6107, 5186, 327, 3802, 6457, 4554, 6530, 5510, 6163, 6304, 6699, 3884, 6617, 6513, 4141, 6391, 3993, 108, 6613, 420, 3818, 5604, 6135, 3178, 3111, 4390, 4240, 6517, 4995, 100, 16201, 93, 4496, 6093, 3618, 6515, 3383]

/-- Contract address constant `pharaoh_loan`. -/
def pharaoh_loan : String := "0xf6A044c3b2a3373eF2909E2474f3229f23279B5F"

/-- Contract address constant `xpharaoh_loan`. -/
def xpharaoh_loan : String := "0x6Bf2Fe80D245b06f6900848ec52544FBdE6c8d2C"

/-- Contract address constant `portfolio_factory`. -/
def portfolio_factory : String := "0x52d43C377e498980135C8F2E858f120A18Ea96C2"

/-- Whitespace characters stripped by Python's `str.strip()`:
space, tab, newline, carriage return, vertical tab, form feed. -/
def isPyWhitespace (c : Char) : Bool :=
  c == ' ' || c == '\t' || c == '\n' || c == '\r' || c == Char.ofNat 11 || c == Char.ofNat 12

/-- Python's `s.strip()`: remove leading and trailing whitespace. -/
def pyStrip (s : String) : String :=
  ⟨((s.data.dropWhile isPyWhitespace).reverse.dropWhile isPyWhitespace).reverse⟩

/-- Python truthiness of the value returned by `generate_calldata`
(`None` and the empty string are falsy), as used in `if not calldata`. -/
def pyFalsy : Option String → Bool
  | none => true
  | some s => s.isEmpty

/-- Argument vector passed to `subprocess.run` inside `generate_calldata`. -/
def castArgs (token_id : Nat) : List String :=
  ["cast", "calldata", "migrateNft(uint256,address,address)",
   toString token_id, xpharaoh_loan, portfolio_factory]

/-- Function `generate_calldata(token_id)`: run the external tool; on success
return `result.stdout.strip()`, on `CalledProcessError` return `None`. -/
def generate_calldata (tool : List String → Option String) (token_id : Nat) : Option String :=
  (tool (castArgs token_id)).map pyStrip

/-- One entry of the `transactions` array in an output JSON file.
`toAddr` models the JSON key named after the recipient (a reserved word in Lean). -/
structure Transaction where
  toAddr : String
  value : String
  data : String
deriving DecidableEq

/-- Top-level JSON object written to each output file. -/
structure TxFile where
  chainId : String
  transactions : List Transaction
deriving DecidableEq

/-- Function `create_transaction_json(token_ids, calldatas)`: one transaction
per token ID, pairing `token_ids[i]` with `calldatas[i]` (in `main` the two
lists always have equal length, so the pairing is a zip). -/
def create_transaction_json (tids : List Nat) (calldatas : List String) : TxFile :=
  { chainId := "43114",
    transactions := (tids.zip calldatas).map fun p =>
      { toAddr := pharaoh_loan, value := "0", data := p.2 } }

/-- Filename built in `main` for a batch:
`migrate_tokens_{ids joined by underscore}.json`. -/
def filename (batch_token_ids : List Nat) : String :=
  "migrate_tokens_" ++ String.intercalate "_" (batch_token_ids.map toString) ++ ".json"

/-- Observation of one file written by `main`: the token IDs of the batch
(the data the filename is built from), the filename, and the JSON content. -/
structure WrittenFile where
  batch : List Nat
  name : String
  content : TxFile
deriving DecidableEq

/-- Mutable state of the loop in `main`: the `file_count` counter, the two
batch accumulators, and the ordered list of files written so far. -/
structure LoopState where
  file_count : Nat
  batch_token_ids : List Nat
  batch_calldatas : List String
  files : List WrittenFile
deriving DecidableEq

/-- State at the top of `main` before the loop. -/
def initState : LoopState := ⟨0, [], [], []⟩

/-- Body of the loop `for i, token_id in enumerate(token_ids)` in `main`:
generate calldata, skip falsy results (`if not calldata: continue`), append to
the batch, and flush the batch to a file when it holds five token IDs or the
loop index is the last one (`len(batch_token_ids) == 5 or i == len(token_ids) - 1`). -/
def step (tool : List String → Option String) (n : Nat) (s : LoopState)
    (it : Nat × Nat) : LoopState :=
  let calldata := generate_calldata tool it.2
  if pyFalsy calldata then s
  else
    let btids := s.batch_token_ids ++ [it.2]
    let bcds := s.batch_calldatas ++ [calldata.getD ""]
    if btids.length = 5 ∨ it.1 = n - 1 then
      { file_count := s.file_count + 1,
        batch_token_ids := [],
        batch_calldatas := [],
        files := s.files ++ [⟨btids, filename btids, create_transaction_json btids bcds⟩] }
    else
      { s with batch_token_ids := btids, batch_calldatas := bcds }

/-- The loop of `main` run on an arbitrary input list `tids` in place of the
module-level `token_ids` (the spec's claims quantify over the input list). -/
def runMain (tool : List String → Option String) (tids : List Nat) : LoopState :=
  tids.enum.foldl (step tool tids.length) initState

/-- Function `main()`: the loop over the module-level `token_ids`. -/
def main (tool : List String → Option String) : LoopState :=
  runMain tool token_ids

/-- Whether the loop body keeps token `t` (its generated calldata is truthy). -/
def succTok (tool : List String → Option String) (t : Nat) : Bool :=
  !(pyFalsy (generate_calldata tool t))

/-- The calldata string stored for a kept token. -/
def cdOf (tool : List String → Option String) (t : Nat) : String :=
  (generate_calldata tool t).getD ""

/-- Whether the final element of the input list is kept by the loop
(`false` on the empty list). -/
def lastSucc (tool : List String → Option String) (tids : List Nat) : Bool :=
  match tids.getLast? with
  | none => false
  | some t => succTok tool t

/-- Split a list into consecutive chunks of five (last chunk possibly shorter). -/
def chunk5 : List α → List (List α)
  | [] => []
  | a :: b :: c :: d :: e :: rest => [a, b, c, d, e] :: chunk5 rest
  | xs => [xs]

/-- Tokens that end up written to files when the loop runs over `tids` with a
pending batch `pending`: all kept tokens when the final input element is kept,
otherwise only the complete groups of five (the trailing partial batch is
never flushed because the final iteration ends at `continue`). -/
def flushedOf (tool : List String → Option String) (pending : List Nat)
    (tids : List Nat) : List Nat :=
  let total := pending ++ tids.filter (fun t => succTok tool t)
  if lastSucc tool tids then total else total.take (5 * (total.length / 5))

/-- Tokens left in the batch accumulator after the loop. -/
def leftoverOf (tool : List String → Option String) (pending : List Nat)
    (tids : List Nat) : List Nat :=
  let total := pending ++ tids.filter (fun t => succTok tool t)
  if lastSucc tool tids then [] else total.drop (5 * (total.length / 5))

/-- The file written for a batch `b` of kept tokens. -/
def mkFile (tool : List String → Option String) (b : List Nat) : WrittenFile :=
  ⟨b, filename b, create_transaction_json b (b.map (cdOf tool))⟩

/-- An oracle under which every invocation succeeds with output `0xab`. -/
def toolAll : List String → Option String := fun _ => some "0xab"

/-- An oracle that succeeds exactly on the invocation for token 1. -/
def toolOne : List String → Option String :=
  fun a => if a = castArgs 1 then some "0xdead" else none

/-- Unfolding equation for `chunk5` on a nonempty list. -/
theorem chunk5_eq_of_ne_nil : ∀ (xs : List α), xs ≠ [] →
    chunk5 xs = xs.take 5 :: chunk5 (xs.drop 5)
  | [], h => absurd rfl h
  | [_], _ => rfl
  | [_, _], _ => rfl
  | [_, _, _], _ => rfl
  | [_, _, _, _], _ => rfl
  | _ :: _ :: _ :: _ :: _ :: _, _ => rfl

/-- Number of chunks is the ceiling of `length / 5`. -/
theorem chunk5_length : ∀ (xs : List α), (chunk5 xs).length = (xs.length + 4) / 5
  | [] => by simp [chunk5]
  | [_] => by simp [chunk5]
  | [_, _] => by simp [chunk5]
  | [_, _, _] => by simp [chunk5]
  | [_, _, _, _] => by simp [chunk5]
  | a :: b :: c :: d :: e :: rest => by
      have ih := chunk5_length rest
      simp only [chunk5, List.length_cons, ih]
      omega

/-- Concatenating the chunks gives back the list. -/
theorem chunk5_flatten : ∀ (xs : List α), (chunk5 xs).flatten = xs
  | [] => by simp [chunk5]
  | [_] => by simp [chunk5]
  | [_, _] => by simp [chunk5]
  | [_, _, _] => by simp [chunk5]
  | [_, _, _, _] => by simp [chunk5]
  | a :: b :: c :: d :: e :: rest => by
      have ih := chunk5_flatten rest
      simp [chunk5, ih]

/-- Every chunk has between 1 and 5 elements. -/
theorem chunk5_mem_length : ∀ (xs : List α), ∀ c ∈ chunk5 xs,
    0 < c.length ∧ c.length ≤ 5
  | [], c, hc => absurd hc (by simp [chunk5])
  | [a], c, hc => by simp [chunk5] at hc; simp [hc]
  | [a, b], c, hc => by simp [chunk5] at hc; simp [hc]
  | [a, b, c'], c, hc => by simp [chunk5] at hc; simp [hc]
  | [a, b, c', d], c, hc => by simp [chunk5] at hc; simp [hc]
  | a :: b :: c' :: d :: e :: rest, c, hc => by
      simp only [chunk5, List.mem_cons] at hc
      rcases hc with hc | hc
      · simp [hc]
      · exact chunk5_mem_length rest c hc

/-- Every chunk except possibly the last has exactly 5 elements. -/
theorem chunk5_getD_length : ∀ (xs : List α) (i : Nat),
    i + 1 < (chunk5 xs).length → ((chunk5 xs).getD i []).length = 5
  | [], i, h => by simp [chunk5] at h
  | [a], i, h => by simp [chunk5] at h
  | [a, b], i, h => by simp [chunk5] at h
  | [a, b, c], i, h => by simp [chunk5] at h
  | [a, b, c, d], i, h => by simp [chunk5] at h
  | a :: b :: c :: d :: e :: rest, i, h => by
      match i with
      | 0 => rfl
      | i' + 1 =>
          simp only [chunk5, List.length_cons] at h
          exact chunk5_getD_length rest i' (by omega)

/-- Splitting off a full chunk of five. -/
theorem chunk5_append_five (xs ys : List α) (h : xs.length = 5) :
    chunk5 (xs ++ ys) = xs :: chunk5 ys := by
  have hne : xs ++ ys ≠ [] := by
    intro hc
    have := congrArg List.length hc
    simp [h] at this
  rw [chunk5_eq_of_ne_nil _ hne, List.take_left' h, List.drop_left' h]

/-- A nonempty list of at most five elements is a single chunk. -/
theorem chunk5_of_le (xs : List α) (h0 : xs ≠ []) (h5 : xs.length ≤ 5) :
    chunk5 xs = [xs] := by
  rw [chunk5_eq_of_ne_nil _ h0, List.take_of_length_le h5, List.drop_eq_nil_of_le h5]
  rfl

/-- A kept token's calldata is defined and truthy. -/
theorem succTok_some (tool : List String → Option String) (t : Nat)
    (h : succTok tool t = true) :
    generate_calldata tool t = some (cdOf tool t) ∧
      pyFalsy (generate_calldata tool t) = false := by
  have hf : pyFalsy (generate_calldata tool t) = false := by
    simpa [succTok] using h
  refine ⟨?_, hf⟩
  cases hg : generate_calldata tool t with
  | none => rw [hg] at hf; simp [pyFalsy] at hf
  | some s => simp [cdOf, hg]

/-- The loop body leaves the state unchanged on a falsy calldata
(`if not calldata: continue`). -/
theorem step_fail (tool : List String → Option String) (n : Nat) (s : LoopState)
    (i t : Nat) (h : pyFalsy (generate_calldata tool t) = true) :
    step tool n s (i, t) = s := by
  simp [step, h]

/-- The loop body on a kept token when the flush condition holds. -/
theorem step_succ_flush (tool : List String → Option String) (n : Nat)
    (s : LoopState) (i t : Nat)
    (h : pyFalsy (generate_calldata tool t) = false)
    (hcond : (s.batch_token_ids ++ [t]).length = 5 ∨ i = n - 1) :
    step tool n s (i, t) =
      ⟨s.file_count + 1, [], [],
       s.files ++ [⟨s.batch_token_ids ++ [t], filename (s.batch_token_ids ++ [t]),
         create_transaction_json (s.batch_token_ids ++ [t])
           (s.batch_calldatas ++ [cdOf tool t])⟩]⟩ := by
  rcases (by simpa using hcond : s.batch_token_ids.length = 4 ∨ i = n - 1) with hc | hc <;>
    simp [step, h, cdOf, hc]

/-- The loop body on a kept token when the flush condition fails. -/
theorem step_succ_noflush (tool : List String → Option String) (n : Nat)
    (s : LoopState) (i t : Nat)
    (h : pyFalsy (generate_calldata tool t) = false)
    (hcond : ¬((s.batch_token_ids ++ [t]).length = 5 ∨ i = n - 1)) :
    step tool n s (i, t) =
      ⟨s.file_count, s.batch_token_ids ++ [t],
       s.batch_calldatas ++ [cdOf tool t], s.files⟩ := by
  have hc := hcond
  simp only [List.length_append, List.length_cons, List.length_nil, not_or] at hc
  simp [step, h, cdOf, hc.1, hc.2]

/-- On a list of at least two elements, `lastSucc` ignores the head. -/
theorem lastSucc_cons_of_ne_nil (tool : List String → Option String) (t : Nat)
    (l : List Nat) (h : l ≠ []) :
    lastSucc tool (t :: l) = lastSucc tool l := by
  cases l with
  | nil => exact absurd rfl h
  | cons a l' => simp [lastSucc, List.getLast?_cons_cons]

/-- A skipped head token changes neither the flushed tokens nor the leftover batch. -/
theorem flushedOf_cons_fail (tool : List String → Option String)
    (pending : List Nat) (t : Nat) (rest' : List Nat)
    (h : succTok tool t = false) :
    flushedOf tool pending (t :: rest') = flushedOf tool pending rest' ∧
      leftoverOf tool pending (t :: rest') = leftoverOf tool pending rest' := by
  have hfilter : (t :: rest').filter (fun t => succTok tool t) =
      rest'.filter (fun t => succTok tool t) := by
    simp [List.filter_cons, h]
  have hlast : lastSucc tool (t :: rest') = lastSucc tool rest' := by
    cases rest' with
    | nil => simp [lastSucc, h]
    | cons a l' => exact lastSucc_cons_of_ne_nil tool t (a :: l') (by simp)
  constructor <;> simp [flushedOf, leftoverOf, hfilter, hlast]

/-- Unfolded form of `flushedOf`. -/
theorem flushedOf_eq (tool : List String → Option String) (pending tids : List Nat) :
    flushedOf tool pending tids =
      if lastSucc tool tids then pending ++ tids.filter (fun t => succTok tool t)
      else (pending ++ tids.filter (fun t => succTok tool t)).take
        (5 * ((pending ++ tids.filter (fun t => succTok tool t)).length / 5)) := rfl

/-- Unfolded form of `leftoverOf`. -/
theorem leftoverOf_eq (tool : List String → Option String) (pending tids : List Nat) :
    leftoverOf tool pending tids =
      if lastSucc tool tids then []
      else (pending ++ tids.filter (fun t => succTok tool t)).drop
        (5 * ((pending ++ tids.filter (fun t => succTok tool t)).length / 5)) := rfl

/-- On the empty input nothing is flushed (when the pending batch is short). -/
theorem flushedOf_nil (tool : List String → Option String) (pending : List Nat)
    (hb : pending.length < 5) : flushedOf tool pending [] = [] := by
  rw [flushedOf_eq]
  simp [lastSucc, Nat.div_eq_of_lt hb]

/-- On the empty input the pending batch survives (when it is short). -/
theorem leftoverOf_nil (tool : List String → Option String) (pending : List Nat)
    (hb : pending.length < 5) : leftoverOf tool pending [] = pending := by
  rw [leftoverOf_eq]
  simp [lastSucc, Nat.div_eq_of_lt hb]

/-- A kept head token, when it does not complete a batch, simply moves into the
pending batch. -/
theorem flushedOf_cons_succ (tool : List String → Option String)
    (pending : List Nat) (t : Nat) (rest' : List Nat)
    (h : succTok tool t = true) (hne : rest' ≠ []) :
    flushedOf tool pending (t :: rest') = flushedOf tool (pending ++ [t]) rest' ∧
      leftoverOf tool pending (t :: rest') = leftoverOf tool (pending ++ [t]) rest' := by
  have hfilter : (t :: rest').filter (fun t => succTok tool t) =
      t :: rest'.filter (fun t => succTok tool t) := by
    simp [List.filter_cons, h]
  have hlast := lastSucc_cons_of_ne_nil tool t rest' hne
  have htot : pending ++ (t :: rest'.filter (fun t => succTok tool t)) =
      (pending ++ [t]) ++ rest'.filter (fun t => succTok tool t) := by
    simp
  constructor
  · rw [flushedOf_eq, flushedOf_eq, hfilter, hlast, htot]
  · rw [leftoverOf_eq, leftoverOf_eq, hfilter, hlast, htot]

/-- A kept head token that is flushed (it completes a batch of five, or it is
the final input element) contributes its batch as the next chunk. -/
theorem flushedOf_cons_flush (tool : List String → Option String)
    (pending : List Nat) (t : Nat) (rest' : List Nat)
    (h : succTok tool t = true)
    (hb : pending.length < 5)
    (hlen5 : (pending ++ [t]).length = 5 ∨ rest' = []) :
    chunk5 (flushedOf tool pending (t :: rest')) =
        (pending ++ [t]) :: chunk5 (flushedOf tool [] rest') ∧
      leftoverOf tool pending (t :: rest') = leftoverOf tool [] rest' := by
  have hfilter : (t :: rest').filter (fun t => succTok tool t) =
      t :: rest'.filter (fun t => succTok tool t) := by
    simp [List.filter_cons, h]
  by_cases hnil : rest' = []
  · -- final input element: the whole pending batch is flushed with `t`
    subst hnil
    have hlast : lastSucc tool [t] = true := by simp [lastSucc, h]
    have h1 : chunk5 (pending ++ [t]) = [pending ++ [t]] :=
      chunk5_of_le _ (by simp) (by simp; omega)
    have hRf : flushedOf tool [] ([] : List Nat) = [] := flushedOf_nil tool [] (by simp)
    have hRl : leftoverOf tool [] ([] : List Nat) = [] := leftoverOf_nil tool [] (by simp)
    constructor
    · rw [hRf, flushedOf_eq, hfilter, if_pos hlast]
      simp [h1, chunk5]
    · rw [hRl, leftoverOf_eq, if_pos hlast]
  · have hlen5' : (pending ++ [t]).length = 5 := hlen5.resolve_right hnil
    have hlast := lastSucc_cons_of_ne_nil tool t rest' hnil
    set S := rest'.filter (fun t => succTok tool t) with hS
    have htot : pending ++ (t :: S) = (pending ++ [t]) ++ S := by simp
    cases hls : lastSucc tool rest' with
    | true =>
        have hcond : lastSucc tool (t :: rest') = true := by rw [hlast, hls]
        constructor
        · rw [flushedOf_eq, hfilter, if_pos hcond, flushedOf_eq, if_pos hls,
            htot, List.nil_append, ← hS, chunk5_append_five _ _ hlen5']
        · rw [leftoverOf_eq, if_pos hcond, leftoverOf_eq, if_pos hls]
    | false =>
        have hcond : ¬(lastSucc tool (t :: rest') = true) := by
          rw [hlast, hls]; simp
        have hcond' : ¬(lastSucc tool rest' = true) := by rw [hls]; simp
        have hlenT : ((pending ++ [t]) ++ S).length = 5 + S.length := by
          rw [List.length_append, hlen5']
        have harith : 5 * (((pending ++ [t]) ++ S).length / 5) =
            5 + 5 * (S.length / 5) := by
          rw [hlenT]; omega
        have h55 : 5 + 5 * (S.length / 5) - 5 = 5 * (S.length / 5) := by omega
        have htk0 : (pending ++ [t]).take (5 + 5 * (S.length / 5)) = pending ++ [t] :=
          List.take_of_length_le (by omega)
        have hdr0 : (pending ++ [t]).drop (5 + 5 * (S.length / 5)) = [] :=
          List.drop_eq_nil_of_le (by omega)
        have htake : ((pending ++ [t]) ++ S).take (5 + 5 * (S.length / 5)) =
            (pending ++ [t]) ++ S.take (5 * (S.length / 5)) := by
          rw [List.take_append_eq_append_take, htk0, hlen5', h55]
        have hdrop : ((pending ++ [t]) ++ S).drop (5 + 5 * (S.length / 5)) =
            S.drop (5 * (S.length / 5)) := by
          rw [List.drop_append_eq_append_drop, hdr0, hlen5', h55, List.nil_append]
        constructor
        · rw [flushedOf_eq, hfilter, if_neg hcond, flushedOf_eq, if_neg hcond',
            htot, List.nil_append, ← hS, harith, htake,
            chunk5_append_five _ _ hlen5']
        · rw [leftoverOf_eq, hfilter, if_neg hcond, leftoverOf_eq, if_neg hcond',
            htot, List.nil_append, ← hS, harith, hdrop]

/-- Characterization of the loop of `main` from any reachable state: the files
written are the chunks of five of the flushed tokens, and the leftover batch
is what remains. -/
theorem go_spec (tool : List String → Option String) :
    ∀ (rest : List Nat) (k n : Nat) (s : LoopState),
      k + rest.length = n →
      s.batch_token_ids.length < 5 →
      s.batch_calldatas = s.batch_token_ids.map (cdOf tool) →
      (List.enumFrom k rest).foldl (step tool n) s =
        ⟨s.file_count + (chunk5 (flushedOf tool s.batch_token_ids rest)).length,
         leftoverOf tool s.batch_token_ids rest,
         (leftoverOf tool s.batch_token_ids rest).map (cdOf tool),
         s.files ++ (chunk5 (flushedOf tool s.batch_token_ids rest)).map (mkFile tool)⟩
  | [], k, n, s, hk, hb, hcd => by
      rw [flushedOf_nil tool _ hb, leftoverOf_nil tool _ hb]
      simp only [List.enumFrom, List.foldl_nil, chunk5, List.length_nil,
        Nat.add_zero, List.map_nil, List.append_nil]
      cases s with
      | mk fc B C F => simp_all
  | t :: rest', k, n, s, hk, hb, hcd => by
      have hstep : List.enumFrom k (t :: rest') = (k, t) :: List.enumFrom (k + 1) rest' := rfl
      rw [hstep, List.foldl_cons]
      have hk' : (k + 1) + rest'.length = n := by
        simp only [List.length_cons] at hk; omega
      have hkn : (k = n - 1) ↔ rest' = [] := by
        constructor
        · intro hkk
          refine List.length_eq_zero.mp ?_
          simp only [List.length_cons] at hk; omega
        · intro hr
          subst hr
          simp only [List.length_cons, List.length_nil] at hk; omega
      cases hsucc : succTok tool t with
      | false =>
          have hfal : pyFalsy (generate_calldata tool t) = true := by
            simpa [succTok] using hsucc
          rw [step_fail tool n s k t hfal]
          rw [go_spec tool rest' (k + 1) n s hk' hb hcd]
          obtain ⟨hfl, hlo⟩ := flushedOf_cons_fail tool s.batch_token_ids t rest' hsucc
          rw [hfl, hlo]
      | true =>
          obtain ⟨hg, hf⟩ := succTok_some tool t hsucc
          by_cases hflush : (s.batch_token_ids ++ [t]).length = 5 ∨ k = n - 1
          · rw [step_succ_flush tool n s k t hf hflush]
            have hlen5 : (s.batch_token_ids ++ [t]).length = 5 ∨ rest' = [] := by
              rcases hflush with h5 | hlastk
              · exact Or.inl h5
              · exact Or.inr (hkn.mp hlastk)
            have hmk : (⟨s.batch_token_ids ++ [t], filename (s.batch_token_ids ++ [t]),
                create_transaction_json (s.batch_token_ids ++ [t])
                  (s.batch_calldatas ++ [cdOf tool t])⟩ : WrittenFile) =
                mkFile tool (s.batch_token_ids ++ [t]) := by
              rw [hcd, mkFile]
              simp
            rw [hmk]
            have hb1 : ([] : List Nat).length < 5 := by decide
            have hcd1 : ([] : List String) = List.map (cdOf tool) ([] : List Nat) := by simp
            have ih := go_spec tool rest' (k + 1) n
              { file_count := s.file_count + 1, batch_token_ids := [],
                batch_calldatas := [],
                files := s.files ++ [mkFile tool (s.batch_token_ids ++ [t])] }
              hk' hb1 hcd1
            rw [ih]
            obtain ⟨hch, hlo⟩ :=
              flushedOf_cons_flush tool s.batch_token_ids t rest' hsucc hb hlen5
            rw [hch, hlo]
            simp only [LoopState.mk.injEq, List.length_cons, List.map_cons,
              List.append_assoc, List.singleton_append]
            refine ⟨by omega, trivial, trivial, trivial⟩
          · rw [step_succ_noflush tool n s k t hf hflush]
            have h5 : (s.batch_token_ids ++ [t]).length ≠ 5 := fun hc => hflush (Or.inl hc)
            have hkn' : rest' ≠ [] := fun hc => hflush (Or.inr (hkn.mpr hc))
            have hb' : (s.batch_token_ids ++ [t]).length < 5 := by
              simp only [List.length_append, List.length_cons, List.length_nil] at h5 ⊢
              omega
            have hcd1 : s.batch_calldatas ++ [cdOf tool t] =
                List.map (cdOf tool) (s.batch_token_ids ++ [t]) := by
              simp [hcd]
            have ih := go_spec tool rest' (k + 1) n
              { file_count := s.file_count, batch_token_ids := s.batch_token_ids ++ [t],
                batch_calldatas := s.batch_calldatas ++ [cdOf tool t], files := s.files }
              hk' hb' hcd1
            rw [ih]
            obtain ⟨hfl, hlo⟩ := flushedOf_cons_succ tool s.batch_token_ids t rest' hsucc hkn'
            rw [hfl, hlo]

/-- The final state of `main`'s loop on an arbitrary input list. -/
theorem runMain_eq (tool : List String → Option String) (tids : List Nat) :
    runMain tool tids =
      ⟨(chunk5 (flushedOf tool [] tids)).length,
       leftoverOf tool [] tids,
       (leftoverOf tool [] tids).map (cdOf tool),
       (chunk5 (flushedOf tool [] tids)).map (mkFile tool)⟩ := by
  have h := go_spec tool tids 0 tids.length initState (by simp) (by decide) rfl
  have henum : tids.enum = List.enumFrom 0 tids := rfl
  rw [runMain, henum, h]
  simp [initState]

/-- Default `WrittenFile` used with `List.getD`. -/
def emptyFile : WrittenFile := ⟨[], "", ⟨"", []⟩⟩

/-- An oracle under which every invocation fails (non-zero exit). -/
def toolNone : List String → Option String := fun _ => none

/-- An oracle whose invocation for token 3 prints only whitespace. -/
def toolBlank : List String → Option String :=
  fun a => if a = castArgs 3 then some "   " else some "0xab"

/-- A file holds one transaction per token of its batch. -/
theorem mkFile_tx_length (tool : List String → Option String) (b : List Nat) :
    (mkFile tool b).content.transactions.length = b.length := by
  simp [mkFile, create_transaction_json]

/-- Every file of a run is `mkFile` of a chunk of the flushed tokens. -/
theorem mem_files_eq (tool : List String → Option String) (tids : List Nat)
    (f : WrittenFile) (hf : f ∈ (runMain tool tids).files) :
    ∃ b ∈ chunk5 (flushedOf tool [] tids), f = mkFile tool b := by
  rw [runMain_eq] at hf
  simp only [List.mem_map] at hf
  obtain ⟨b, hb, rfl⟩ := hf
  exact ⟨b, hb, rfl⟩

/-- Every flushed token is a kept token. -/
theorem flushed_subset_kept (tool : List String → Option String) (tids : List Nat)
    (t : Nat) (ht : t ∈ flushedOf tool [] tids) :
    succTok tool t = true := by
  rw [flushedOf_eq] at ht
  simp only [List.nil_append] at ht
  have hmem : t ∈ tids.filter (fun t => succTok tool t) := by
    by_cases hls : lastSucc tool tids = true
    · rwa [if_pos hls] at ht
    · rw [if_neg hls] at ht
      exact (List.take_sublist _ _).subset ht
  exact (List.mem_filter.mp hmem).2

/-- A token whose calldata is falsy is in no batch of any written file. -/
theorem not_kept_not_in_files (tool : List String → Option String) (tids : List Nat)
    (t : Nat) (h : succTok tool t = false) :
    ∀ f ∈ (runMain tool tids).files, t ∉ f.batch := by
  intro f hf hmem
  obtain ⟨b, hb, rfl⟩ := mem_files_eq tool tids f hf
  have hbt : t ∈ flushedOf tool [] tids := by
    rw [← chunk5_flatten (flushedOf tool [] tids)]
    exact List.mem_flatten.mpr ⟨b, hb, hmem⟩
  rw [flushed_subset_kept tool tids t hbt] at h
  exact absurd h (by simp)

/-- C1 (counterexample): on input `[1, 2]` with token 1 succeeding and token 2
failing, one token is successfully processed but zero files are written, while
ceiling(1 / 5) = 1: the final `continue` skips the flush of the pending batch. -/
theorem c1_counterexample :
    ¬ ((runMain toolOne [1, 2]).files.length =
      (([1, 2].filter (fun t => succTok toolOne t)).length + 4) / 5) := by
  decide

/-- C1 (amended): the number of files written equals ceiling(successes / 5)
when the final input token is successfully processed; when the final token is
skipped, the trailing partial batch is never flushed and the count is
floor(successes / 5). -/
theorem c1_files_count (tool : List String → Option String) (tids : List Nat) :
    (runMain tool tids).files.length =
      if lastSucc tool tids
      then ((tids.filter (fun t => succTok tool t)).length + 4) / 5
      else (tids.filter (fun t => succTok tool t)).length / 5 := by
  rw [runMain_eq]
  show (List.map (mkFile tool) (chunk5 (flushedOf tool [] tids))).length = _
  rw [List.length_map, chunk5_length, flushedOf_eq]
  simp only [List.nil_append]
  cases hls : lastSucc tool tids
  · rw [if_neg (by simp [hls]), if_neg (by simp [hls]), List.length_take]
    have hle : 5 * ((tids.filter (fun t => succTok tool t)).length / 5) ≤
        (tids.filter (fun t => succTok tool t)).length := by omega
    rw [Nat.min_eq_left hle]
    omega
  · rw [if_pos (by simp [hls]), if_pos (by simp [hls])]

/-- C2 (counterexample): with a pending batch of one token, at the final loop
index (i = 1 of n = 2) the claimed flush condition holds, yet no file is
emitted because the final token's calldata generation fails. -/
theorem c2_counterexample :
    ¬ (((step toolOne 2 ⟨0, [1], ["0xdead"], []⟩ (1, 2)).files.length =
        (⟨0, [1], ["0xdead"], []⟩ : LoopState).files.length + 1) ↔
      ((⟨0, [1], ["0xdead"], []⟩ : LoopState).batch_token_ids.length + 1 = 5 ∨
        (1 : Nat) = 2 - 1)) := by
  decide

/-- C2 (amended): a loop iteration emits a file exactly when the current
token's calldata generation succeeds and, with it appended, the batch holds
five tokens or the iteration is at the final input index; in particular the
flush at the final index is conditional on that token's success. -/
theorem c2_emission_iff (tool : List String → Option String) (n : Nat)
    (s : LoopState) (i t : Nat) :
    (step tool n s (i, t)).files.length = s.files.length + 1 ↔
      (succTok tool t = true ∧
        (s.batch_token_ids.length + 1 = 5 ∨ i = n - 1)) := by
  cases hsucc : succTok tool t with
  | false =>
      have hfal : pyFalsy (generate_calldata tool t) = true := by
        simpa [succTok] using hsucc
      rw [step_fail tool n s i t hfal]
      simp
  | true =>
      obtain ⟨hg, hf⟩ := succTok_some tool t hsucc
      by_cases hcond : (s.batch_token_ids ++ [t]).length = 5 ∨ i = n - 1
      · rw [step_succ_flush tool n s i t hf hcond]
        refine iff_of_true (by simp) ⟨rfl, ?_⟩
        simpa using hcond
      · rw [step_succ_noflush tool n s i t hf hcond]
        refine iff_of_false (by simp) ?_
        rintro ⟨-, hor⟩
        exact hcond (by simpa using hor)

/-- C3 (counterexample): on input `[1, 2]` with token 1 succeeding and token 2
failing, the successful token 1 appears in no output file, so the output
batches do not partition the successful tokens. -/
theorem c3_counterexample :
    ¬ (((runMain toolOne [1, 2]).files.map (fun f => f.batch)).flatten =
      [1, 2].filter (fun t => succTok toolOne t)) := by
  decide

/-- C3 (amended): a token whose calldata generation yields nothing usable
appears in no output file, and the output batches concatenate, in input
order, to the successful tokens when the final input token succeeds, and
otherwise only to their complete leading groups of five (the trailing
partial group is dropped). -/
theorem c3_batches (tool : List String → Option String) (tids : List Nat) :
    (∀ t, succTok tool t = false →
      ∀ f ∈ (runMain tool tids).files, t ∉ f.batch) ∧
      ((runMain tool tids).files.map (fun f => f.batch)).flatten =
        (if lastSucc tool tids then tids.filter (fun t => succTok tool t)
         else (tids.filter (fun t => succTok tool t)).take
           (5 * ((tids.filter (fun t => succTok tool t)).length / 5))) := by
  constructor
  · intro t ht f hf
    exact not_kept_not_in_files tool tids t ht f hf
  · rw [runMain_eq]
    show ((List.map (mkFile tool) (chunk5 (flushedOf tool [] tids))).map
      (fun f => f.batch)).flatten = _
    rw [List.map_map]
    have hcomp : ((fun f => f.batch) ∘ mkFile tool) = id := rfl
    rw [hcomp, List.map_id, chunk5_flatten, flushedOf_eq]
    simp only [List.nil_append]

/-- C4: every output file holds between 1 and 5 transactions, and every file
other than the last holds exactly 5, so only the last file of a run may have
fewer than 5 entries. -/
theorem c4_file_sizes (tool : List String → Option String) (tids : List Nat) :
    (∀ f ∈ (runMain tool tids).files,
      1 ≤ f.content.transactions.length ∧ f.content.transactions.length ≤ 5) ∧
      (∀ i, i + 1 < (runMain tool tids).files.length →
        ((runMain tool tids).files.getD i emptyFile).content.transactions.length = 5) := by
  constructor
  · intro f hf
    obtain ⟨b, hb, rfl⟩ := mem_files_eq tool tids f hf
    rw [mkFile_tx_length]
    have := chunk5_mem_length (flushedOf tool [] tids) b hb
    omega
  · intro i hi
    rw [runMain_eq] at hi ⊢
    have hi' : i + 1 < (chunk5 (flushedOf tool [] tids)).length := by
      simpa using hi
    have hlen : i < (List.map (mkFile tool) (chunk5 (flushedOf tool [] tids))).length := by
      simp only [List.length_map]
      omega
    show ((List.map (mkFile tool)
      (chunk5 (flushedOf tool [] tids))).getD i emptyFile).content.transactions.length = 5
    rw [List.getD_eq_getElem _ _ hlen, List.getElem_map, mkFile_tx_length]
    have hgd := chunk5_getD_length (flushedOf tool [] tids) i hi'
    rw [List.getD_eq_getElem _ _ (by omega)] at hgd
    exact hgd

/-- C5: in every transaction of every output file, the value field is the
string 0 and the recipient is the fixed loan contract address. -/
theorem c5_tx_fields (tool : List String → Option String) (tids : List Nat) :
    ∀ f ∈ (runMain tool tids).files, ∀ tx ∈ f.content.transactions,
      tx.value = "0" ∧ tx.toAddr = "0xf6A044c3b2a3373eF2909E2474f3229f23279B5F" := by
  intro f hf tx htx
  obtain ⟨b, hb, rfl⟩ := mem_files_eq tool tids f hf
  simp only [mkFile, create_transaction_json, List.mem_map] at htx
  obtain ⟨p, hp, rfl⟩ := htx
  exact ⟨rfl, rfl⟩

/-- C5 witness: the single transaction of the run on `[1]` with an
all-succeeding oracle has value `0` and the fixed recipient. -/
theorem c5_witness :
    (((runMain toolAll [1]).files.getD 0 emptyFile).content.transactions.getD 0
        ⟨"", "", ""⟩).value = "0" ∧
      (((runMain toolAll [1]).files.getD 0 emptyFile).content.transactions.getD 0
        ⟨"", "", ""⟩).toAddr = "0xf6A044c3b2a3373eF2909E2474f3229f23279B5F" :=
  c5_tx_fields toolAll [1] ((runMain toolAll [1]).files.getD 0 emptyFile) (by decide)
    (((runMain toolAll [1]).files.getD 0 emptyFile).content.transactions.getD 0
      ⟨"", "", ""⟩) (by decide)

/-- C6: when the external tool exits non-zero for a token, that token appears
in no output file, the loop body leaves the state untouched on that token (so
the run continues with the rest), and any loop body only ever appends to the
list of written files (no earlier file is modified or removed). -/
theorem c6_failure_policy (tool : List String → Option String) (tids : List Nat)
    (t : Nat) (hfail : tool (castArgs t) = none) :
    (∀ f ∈ (runMain tool tids).files, t ∉ f.batch) ∧
      (∀ (n : Nat) (s : LoopState) (i : Nat), step tool n s (i, t) = s) ∧
      (∀ (tool' : List String → Option String) (n : Nat) (s : LoopState)
        (it : Nat × Nat), ∃ ext, (step tool' n s it).files = s.files ++ ext) := by
  have hsucc : succTok tool t = false := by
    simp [succTok, generate_calldata, hfail, pyFalsy]
  refine ⟨not_kept_not_in_files tool tids t hsucc, ?_, ?_⟩
  · intro n s i
    apply step_fail
    simp [generate_calldata, hfail, pyFalsy]
  · rintro tool' n s ⟨i, t'⟩
    by_cases hfal : pyFalsy (generate_calldata tool' t') = true
    · exact ⟨[], by rw [step_fail tool' n s i t' hfal, List.append_nil]⟩
    · have hf' : pyFalsy (generate_calldata tool' t') = false := by
        simpa using hfal
      by_cases hcond : (s.batch_token_ids ++ [t']).length = 5 ∨ i = n - 1
      · refine ⟨[⟨s.batch_token_ids ++ [t'], filename (s.batch_token_ids ++ [t']),
          create_transaction_json (s.batch_token_ids ++ [t'])
            (s.batch_calldatas ++ [cdOf tool' t'])⟩], ?_⟩
        rw [step_succ_flush tool' n s i t' hf' hcond]
      · exact ⟨[], by rw [step_succ_noflush tool' n s i t' hf' hcond, List.append_nil]⟩

/-- C6 witness: under an always-failing oracle, token 7 is excluded, the loop
body is the identity on it, and step never rewrites earlier files. -/
theorem c6_witness :
    toolNone (castArgs 7) = none ∧
      ((∀ f ∈ (runMain toolNone [7]).files, (7 : Nat) ∉ f.batch) ∧
        (∀ (n : Nat) (s : LoopState) (i : Nat), step toolNone n s (i, 7) = s) ∧
        (∀ (tool' : List String → Option String) (n : Nat) (s : LoopState)
          (it : Nat × Nat), ∃ ext, (step tool' n s it).files = s.files ++ ext)) :=
  ⟨rfl, c6_failure_policy toolNone [7] 7 rfl⟩

/-- C7: on the six-token example input with every generation succeeding, the
run writes exactly two files, with 5 and then 1 transactions. -/
theorem c7_example_run (tool : List String → Option String)
    (h : ∀ t ∈ [5959, 5961, 6335, 6524, 4593, 5603], succTok tool t = true) :
    (runMain tool [5959, 5961, 6335, 6524, 4593, 5603]).files.length = 2 ∧
      (runMain tool [5959, 5961, 6335, 6524, 4593, 5603]).files.map
        (fun f => f.content.transactions.length) = [5, 1] := by
  have hfilter : [5959, 5961, 6335, 6524, 4593, 5603].filter
      (fun t => succTok tool t) = [5959, 5961, 6335, 6524, 4593, 5603] := by
    rw [List.filter_eq_self]
    exact h
  have hlast : lastSucc tool [5959, 5961, 6335, 6524, 4593, 5603] = true := by
    have h3 := h 5603 (by simp)
    simp [lastSucc, h3]
  have hflush : flushedOf tool [] [5959, 5961, 6335, 6524, 4593, 5603] =
      [5959, 5961, 6335, 6524, 4593, 5603] := by
    rw [flushedOf_eq, hfilter, if_pos hlast, List.nil_append]
  rw [runMain_eq, hflush]
  constructor
  · rfl
  · show (List.map (mkFile tool)
      (chunk5 [5959, 5961, 6335, 6524, 4593, 5603])).map
        (fun f => f.content.transactions.length) = [5, 1]
    simp [chunk5, mkFile_tx_length]

/-- C7 witness: with an oracle that always prints `0xab`, the six-token
example input produces two files of 5 and 1 transactions. -/
theorem c7_witness :
    (∀ t ∈ [5959, 5961, 6335, 6524, 4593, 5603], succTok toolAll t = true) ∧
      ((runMain toolAll [5959, 5961, 6335, 6524, 4593, 5603]).files.length = 2 ∧
        (runMain toolAll [5959, 5961, 6335, 6524, 4593, 5603]).files.map
          (fun f => f.content.transactions.length) = [5, 1]) :=
  ⟨by decide, c7_example_run toolAll (by decide)⟩

/-- C8: the chainId of every output file of every run is the string 43114. -/
theorem c8_chainId (tool : List String → Option String) (tids : List Nat) :
    ∀ f ∈ (runMain tool tids).files, f.content.chainId = "43114" := by
  intro f hf
  obtain ⟨b, hb, rfl⟩ := mem_files_eq tool tids f hf
  rfl

/-- C8 witness: the chainId of the file produced from input `[1]`. -/
theorem c8_witness :
    ((runMain toolAll [1]).files.getD 0 emptyFile).content.chainId = "43114" :=
  c8_chainId toolAll [1] ((runMain toolAll [1]).files.getD 0 emptyFile) (by decide)

/-- C9: a token whose invocation exits zero but prints only whitespace is
treated like a failure: the loop body leaves the state untouched and the token
appears in no output file. -/
theorem c9_blank_output_skipped (tool : List String → Option String)
    (tids : List Nat) (t : Nat) (raw : String)
    (hres : tool (castArgs t) = some raw) (hblank : pyStrip raw = "") :
    (∀ f ∈ (runMain tool tids).files, t ∉ f.batch) ∧
      (∀ (n : Nat) (s : LoopState) (i : Nat), step tool n s (i, t) = s) := by
  have hgen : generate_calldata tool t = some "" := by
    simp [generate_calldata, hres, hblank]
  have hfal : pyFalsy (generate_calldata tool t) = true := by
    rw [hgen]
    decide
  have hsucc : succTok tool t = false := by
    simp [succTok, hfal]
  refine ⟨not_kept_not_in_files tool tids t hsucc, ?_⟩
  intro n s i
  exact step_fail tool n s i t hfal

/-- C9 witness: token 3's invocation prints three spaces; it is skipped and
excluded from output. -/
theorem c9_witness :
    toolBlank (castArgs 3) = some "   " ∧ pyStrip "   " = "" ∧
      ((∀ f ∈ (runMain toolBlank [3]).files, (3 : Nat) ∉ f.batch) ∧
        (∀ (n : Nat) (s : LoopState) (i : Nat), step toolBlank n s (i, 3) = s)) :=
  ⟨by decide, by decide,
    c9_blank_output_skipped toolBlank [3] 3 "   " (by decide) (by decide)⟩

/-- C10: the data field of the transaction written for a token equals the
external tool's standard output with surrounding whitespace stripped. -/
theorem c10_data_field (tool : List String → Option String) (tids : List Nat)
    (t : Nat) (raw : String) (hres : tool (castArgs t) = some raw) :
    ∀ f ∈ (runMain tool tids).files, ∀ (j : Nat)
      (hj : j < f.batch.length), f.batch.get ⟨j, hj⟩ = t →
      ∃ htj : j < f.content.transactions.length,
        (f.content.transactions.get ⟨j, htj⟩).data = pyStrip raw := by
  intro f hf j hj hjt
  obtain ⟨b, hb, rfl⟩ := mem_files_eq tool tids f hf
  have hjb : j < b.length := hj
  have hcd : cdOf tool t = pyStrip raw := by
    simp [cdOf, generate_calldata, hres]
  have hjt' : b[j] = t := hjt
  refine ⟨by rw [mkFile_tx_length]; exact hjb, ?_⟩
  simp only [mkFile, create_transaction_json, List.get_eq_getElem,
    List.getElem_map, List.getElem_zip, hjt', hcd]

/-- C10 witness: the single transaction for token 1 under the oracle that
prints `0xab` carries the stripped output as its data. -/
theorem c10_witness :
    ∃ htj : 0 < ((runMain toolAll [1]).files.getD 0
        emptyFile).content.transactions.length,
      ((((runMain toolAll [1]).files.getD 0
        emptyFile).content.transactions.get ⟨0, htj⟩).data = pyStrip "0xab") :=
  c10_data_field toolAll [1] 1 "0xab" rfl
    ((runMain toolAll [1]).files.getD 0 emptyFile) (by decide) 0 (by decide) (by decide)

end LoanContracts
